import Mathlib

/-!
# Verification of the AVR ISP write-fuses module

Shallow embedding of src/owfmodules/avrisp/write_fuses.py (class WriteFuses).

The module drives a SPI bus and a reset GPIO to write the fuse bytes and
lock bits of an AVR microcontroller.  We model a run of `process` (after
device identification, which is an external module) as the list of
hardware-touching events it performs, in order.  Python exceptions
(`bytes([v])` raises ValueError when `v` is not a byte) are modelled by a
Bool flag threaded through the computation: `false` means the run aborted
at that point, and the trace holds exactly the events emitted before the
abort.

Delays are measured in tenths of a time unit: `sleep 5` is the 0.5 settle
delay after the programming-enable command, `sleep 1` the 0.1 delay after
each fuse-group write.
-/

/-- One hardware-touching step performed by a run. -/
inductive Event where
  /-- Creation of the SPI interface object on the given bus. -/
  | createSPI (bus : Nat)
  /-- Creation of the reset-line GPIO object on the given pin. -/
  | createGPIO (pin : Nat)
  /-- Setting the reset line direction to output (reset.direction = GPIO.OUTPUT). -/
  | setDirectionOutput
  /-- Driving the reset line to the given logic level (reset.status = v). -/
  | resetStatus (v : Nat)
  /-- Configuring the SPI interface with the given baudrate. -/
  | spiConfigure (baudrate : Nat)
  /-- Transmitting the given bytes on the SPI bus (spi_interface.transmit). -/
  | transmit (data : List Nat)
  /-- time.sleep of the given number of tenths of a time unit. -/
  | sleep (tenths : Nat)
deriving DecidableEq, Repr

/-- The device descriptor returned by device identification: the field lists
for each fuse group, as in the `device` dict of the source.  Only the
emptiness of each list is inspected by `write_fuses.py`. -/
structure Device where
  fuse_low : List String
  fuse_high : List String
  fuse_extended : List String
  lock_bits : List String
deriving DecidableEq, Repr

/-- The optional write values of the module options: `none` embeds the empty
string value (value left unchanged), `some v` a supplied hex value. -/
structure WriteOptions where
  low_fuse : Option Nat
  high_fuse : Option Nat
  extended_fuse : Option Nat
  lock_bits : Option Nat
deriving DecidableEq, Repr

/-- Source constant: write_low_fuse prefix AC A0 00. -/
def write_low_fuse : List Nat := [0xAC, 0xA0, 0x00]

/-- Source constant: write_high_fuse prefix AC A8 00. -/
def write_high_fuse : List Nat := [0xAC, 0xA8, 0x00]

/-- Source constant: write_extended_fuse prefix AC A4 00. -/
def write_extended_fuse : List Nat := [0xAC, 0xA4, 0x00]

/-- Source constant: write_lockbits prefix AC E0 00. -/
def write_lockbits_cmd : List Nat := [0xAC, 0xE0, 0x00]

/-- Source constant: enable_mem_access_cmd AC 53 00 00. -/
def enable_mem_access_cmd : List Nat := [0xAC, 0x53, 0x00, 0x00]

/-- Python bytes([v]): a one-byte literal, raising (none) when v is not in
0..255. -/
def byteLiteral (v : Nat) : Option (List Nat) :=
  if v ≤ 255 then some [v] else none

/-- One fuse-group block of WriteFuses.write_fuses (the three blocks of the
source are identical up to the field list, option value and command bytes):
if the device supports the group (non-empty field list) and a value was
supplied, drive reset low, transmit the 3-byte command followed by the value
byte, drive reset high and sleep 0.1; otherwise do nothing.  The Bool is
false when bytes([value]) raised, in which case only the reset-low event
happened. -/
def writeFuseBlock (fields : List String) (value : Option Nat) (cmd : List Nat) :
    List Event × Bool :=
  if 0 < fields.length then
    match value with
    | some v =>
      match byteLiteral v with
      | some vb =>
        ([Event.resetStatus 0, Event.transmit (cmd ++ vb),
          Event.resetStatus 1, Event.sleep 1], true)
      | none => ([Event.resetStatus 0], false)
    | none => ([], true)
  else ([], true)

/-- WriteFuses.write_fuses: low, then high, then extended fuse block, each
gated on the device field list and the supplied option value; an exception
in one block aborts the rest. -/
def write_fuses (dev : Device) (opts : WriteOptions) : List Event × Bool :=
  if (writeFuseBlock dev.fuse_low opts.low_fuse write_low_fuse).2 then
    if (writeFuseBlock dev.fuse_high opts.high_fuse write_high_fuse).2 then
      ((writeFuseBlock dev.fuse_low opts.low_fuse write_low_fuse).1 ++
       (writeFuseBlock dev.fuse_high opts.high_fuse write_high_fuse).1 ++
       (writeFuseBlock dev.fuse_extended opts.extended_fuse write_extended_fuse).1,
       (writeFuseBlock dev.fuse_extended opts.extended_fuse write_extended_fuse).2)
    else
      ((writeFuseBlock dev.fuse_low opts.low_fuse write_low_fuse).1 ++
       (writeFuseBlock dev.fuse_high opts.high_fuse write_high_fuse).1, false)
  else
    ((writeFuseBlock dev.fuse_low opts.low_fuse write_low_fuse).1, false)

/-- WriteFuses.write_lockbits: if the device has lock bits and a value was
supplied, transmit the lock-bits write command followed by the value byte;
no reset-line activity of its own.  The Bool is false when bytes([value])
raised (before the transmit). -/
def write_lockbits (dev : Device) (opts : WriteOptions) : List Event × Bool :=
  if 0 < dev.lock_bits.length then
    match opts.lock_bits with
    | some v =>
      match byteLiteral v with
      | some vb => ([Event.transmit (write_lockbits_cmd ++ vb)], true)
      | none => ([], false)
    | none => ([], true)
  else ([], true)

/-- The fixed event sequence of WriteFuses.process between the device-found
check and the call to write_fuses: create the SPI interface and reset GPIO,
set the reset direction to output, drive reset high (inactive), configure
SPI, drive reset low, transmit the programming-enable command, sleep 0.5,
drive reset high. -/
def setupTrace (spi_bus reset_line spi_baudrate : Nat) : List Event :=
  [Event.createSPI spi_bus, Event.createGPIO reset_line,
   Event.setDirectionOutput, Event.resetStatus 1,
   Event.spiConfigure spi_baudrate, Event.resetStatus 0,
   Event.transmit enable_mem_access_cmd, Event.sleep 5, Event.resetStatus 1]

/-- WriteFuses.process, given the result of device identification: if no
device was identified, nothing happens; otherwise the setup sequence, the
fuse writes, reset low, the lock-bits write, reset high.  An exception in
write_fuses skips the rest of process; an exception in write_lockbits skips
the final reset-high. -/
def process (device : Option Device) (opts : WriteOptions)
    (spi_bus reset_line spi_baudrate : Nat) : List Event × Bool :=
  match device with
  | none => ([], true)
  | some dev =>
    if (write_fuses dev opts).2 then
      if (write_lockbits dev opts).2 then
        (setupTrace spi_bus reset_line spi_baudrate ++ (write_fuses dev opts).1 ++
         [Event.resetStatus 0] ++ (write_lockbits dev opts).1 ++ [Event.resetStatus 1],
         true)
      else
        (setupTrace spi_bus reset_line spi_baudrate ++ (write_fuses dev opts).1 ++
         [Event.resetStatus 0] ++ (write_lockbits dev opts).1, false)
    else
      (setupTrace spi_bus reset_line spi_baudrate ++ (write_fuses dev opts).1, false)

/-- A supplied option value fits in one byte (vacuously true when absent). -/
def fitsByte (o : Option Nat) : Bool :=
  o.all (fun v => decide (v ≤ 255))

/-- A fuse group is actually written: the device supports it and a value was
supplied. -/
def fuseWritten (fields : List String) (o : Option Nat) : Bool :=
  decide (0 < fields.length) && o.isSome

/-- Every SPI transmission a run can make: the programming-enable command,
or one of the four write commands carrying the supplied in-range value of a
group the device supports. -/
def TransmitSpec (dev : Device) (opts : WriteOptions) (data : List Nat) : Prop :=
  data = enable_mem_access_cmd ∨
  (∃ v, opts.low_fuse = some v ∧ v ≤ 255 ∧ 0 < dev.fuse_low.length ∧
    data = write_low_fuse ++ [v]) ∨
  (∃ v, opts.high_fuse = some v ∧ v ≤ 255 ∧ 0 < dev.fuse_high.length ∧
    data = write_high_fuse ++ [v]) ∨
  (∃ v, opts.extended_fuse = some v ∧ v ≤ 255 ∧ 0 < dev.fuse_extended.length ∧
    data = write_extended_fuse ++ [v]) ∨
  (∃ v, opts.lock_bits = some v ∧ v ≤ 255 ∧ 0 < dev.lock_bits.length ∧
    data = write_lockbits_cmd ++ [v])

/-- The group index (low 0, high 1, extended 2, lock bits 3) of a write
transmit, identified by its 3-byte command bytes; none for any other
event. -/
def writeTag (e : Event) : Option Nat :=
  match e with
  | Event.transmit data =>
    if data.take 3 = write_low_fuse then some 0
    else if data.take 3 = write_high_fuse then some 1
    else if data.take 3 = write_extended_fuse then some 2
    else if data.take 3 = write_lockbits_cmd then some 3
    else none
  | _ => none

section Sanity

/-- A device supporting every group, for concrete evaluations. -/
def devFull : Device := ⟨["f"], ["f"], ["f"], ["f"]⟩

example :
    (process (some devFull) ⟨some 0xE2, none, none, none⟩ 0 1 1000000).1 =
      setupTrace 0 1 1000000 ++
      [Event.resetStatus 0, Event.transmit [0xAC, 0xA0, 0x00, 0xE2],
       Event.resetStatus 1, Event.sleep 1] ++
      [Event.resetStatus 0] ++ [] ++ [Event.resetStatus 1] := by
  decide

example :
    (process (some devFull) ⟨some 0xE2, some 0x100, none, none⟩ 0 1 1000000).1 =
      setupTrace 0 1 1000000 ++
      [Event.resetStatus 0, Event.transmit [0xAC, 0xA0, 0x00, 0xE2],
       Event.resetStatus 1, Event.sleep 1, Event.resetStatus 0] := by
  decide

end Sanity

section Helpers

/-- A block with no supplied value does nothing. -/
lemma writeFuseBlock_none (fields : List String) (cmd : List Nat) :
    writeFuseBlock fields none cmd = ([], true) := by
  unfold writeFuseBlock
  split <;> rfl

/-- A block on an unsupported group (empty field list) does nothing. -/
lemma writeFuseBlock_nil (value : Option Nat) (cmd : List Nat) :
    writeFuseBlock [] value cmd = ([], true) := by
  rfl

/-- A block on a supported group with an in-range value performs the write
sequence. -/
lemma writeFuseBlock_some_le {fields : List String} {v : Nat} (cmd : List Nat)
    (hlen : 0 < fields.length) (hle : v ≤ 255) :
    writeFuseBlock fields (some v) cmd =
      ([Event.resetStatus 0, Event.transmit (cmd ++ [v]),
        Event.resetStatus 1, Event.sleep 1], true) := by
  simp [writeFuseBlock, byteLiteral, hlen, hle]

/-- A block on a supported group with an out-of-range value drives reset low
and then aborts. -/
lemma writeFuseBlock_some_gt {fields : List String} {v : Nat} (cmd : List Nat)
    (hlen : 0 < fields.length) (hgt : 255 < v) :
    writeFuseBlock fields (some v) cmd = ([Event.resetStatus 0], false) := by
  have hle : ¬ v ≤ 255 := by omega
  simp [writeFuseBlock, byteLiteral, hlen, hle]

/-- A block whose value fits in a byte does not abort. -/
lemma writeFuseBlock_snd_of_fits {fields : List String} {value : Option Nat}
    {cmd : List Nat} (h : fitsByte value = true) :
    (writeFuseBlock fields value cmd).2 = true := by
  cases value with
  | none => rw [writeFuseBlock_none]
  | some v =>
    have hv : v ≤ 255 := by simpa [fitsByte] using h
    by_cases hlen : 0 < fields.length
    · rw [writeFuseBlock_some_le cmd hlen hv]
    · unfold writeFuseBlock
      rw [if_neg hlen]

/-- Any transmit inside a fuse block carries the supplied value of a
supported group, appended to the block's command bytes. -/
lemma transmit_mem_writeFuseBlock {fields : List String} {value : Option Nat}
    {cmd data : List Nat}
    (h : Event.transmit data ∈ (writeFuseBlock fields value cmd).1) :
    ∃ v, value = some v ∧ v ≤ 255 ∧ 0 < fields.length ∧ data = cmd ++ [v] := by
  by_cases hlen : 0 < fields.length
  · cases value with
    | none => rw [writeFuseBlock_none] at h; simp at h
    | some v =>
      by_cases hle : v ≤ 255
      · rw [writeFuseBlock_some_le cmd hlen hle] at h
        simp at h
        exact ⟨v, rfl, hle, hlen, h⟩
      · rw [writeFuseBlock_some_gt cmd hlen (by omega)] at h
        simp at h
  · unfold writeFuseBlock at h
    rw [if_neg hlen] at h
    simp at h

/-- Any transmit inside write_fuses is one of the three fuse-group write
commands, carrying the supplied value of a supported group. -/
lemma transmit_mem_write_fuses {dev : Device} {opts : WriteOptions}
    {data : List Nat} (h : Event.transmit data ∈ (write_fuses dev opts).1) :
    (∃ v, opts.low_fuse = some v ∧ v ≤ 255 ∧ 0 < dev.fuse_low.length ∧
      data = write_low_fuse ++ [v]) ∨
    (∃ v, opts.high_fuse = some v ∧ v ≤ 255 ∧ 0 < dev.fuse_high.length ∧
      data = write_high_fuse ++ [v]) ∨
    (∃ v, opts.extended_fuse = some v ∧ v ≤ 255 ∧ 0 < dev.fuse_extended.length ∧
      data = write_extended_fuse ++ [v]) := by
  unfold write_fuses at h
  split at h
  · split at h
    · simp only [List.mem_append] at h
      rcases h with (h | h) | h
      · exact Or.inl (transmit_mem_writeFuseBlock h)
      · exact Or.inr (Or.inl (transmit_mem_writeFuseBlock h))
      · exact Or.inr (Or.inr (transmit_mem_writeFuseBlock h))
    · simp only [List.mem_append] at h
      rcases h with h | h
      · exact Or.inl (transmit_mem_writeFuseBlock h)
      · exact Or.inr (Or.inl (transmit_mem_writeFuseBlock h))
  · exact Or.inl (transmit_mem_writeFuseBlock h)

/-- Any transmit inside write_lockbits is the lock-bits write command
carrying the supplied in-range value, on a device with lock bits. -/
lemma transmit_mem_write_lockbits {dev : Device} {opts : WriteOptions}
    {data : List Nat} (h : Event.transmit data ∈ (write_lockbits dev opts).1) :
    ∃ v, opts.lock_bits = some v ∧ v ≤ 255 ∧ 0 < dev.lock_bits.length ∧
      data = write_lockbits_cmd ++ [v] := by
  unfold write_lockbits at h
  split at h
  · cases hlk : opts.lock_bits with
    | none => rw [hlk] at h; simp at h
    | some v =>
      rw [hlk] at h
      by_cases hle : v ≤ 255
      · simp [byteLiteral, hle] at h
        exact ⟨v, rfl, hle, by assumption, h⟩
      · simp [byteLiteral, hle] at h
  · simp at h

/-- write_lockbits never touches the reset line. -/
lemma resetStatus_not_mem_write_lockbits (dev : Device) (opts : WriteOptions)
    (v : Nat) : Event.resetStatus v ∉ (write_lockbits dev opts).1 := by
  unfold write_lockbits
  split
  · cases opts.lock_bits with
    | none => simp
    | some w =>
      by_cases hle : w ≤ 255 <;> simp [byteLiteral, hle]
  · simp

/-- The only transmit in the setup sequence is the programming-enable
command. -/
lemma transmit_mem_setupTrace {b l r : Nat} {data : List Nat}
    (h : Event.transmit data ∈ setupTrace b l r) :
    data = enable_mem_access_cmd := by
  simp [setupTrace] at h
  exact h

/-- Any transmit of a run with an identified device satisfies TransmitSpec. -/
lemma transmit_mem_process {dev : Device} {opts : WriteOptions} {b l r : Nat}
    {data : List Nat}
    (h : Event.transmit data ∈ (process (some dev) opts b l r).1) :
    TransmitSpec dev opts data := by
  simp only [process] at h
  unfold TransmitSpec
  split at h
  · split at h
    · simp only [List.mem_append] at h
      rcases h with (((h | h) | h) | h) | h
      · exact Or.inl (transmit_mem_setupTrace h)
      · rcases transmit_mem_write_fuses h with h | h | h
        · exact Or.inr (Or.inl h)
        · exact Or.inr (Or.inr (Or.inl h))
        · exact Or.inr (Or.inr (Or.inr (Or.inl h)))
      · simp at h
      · exact Or.inr (Or.inr (Or.inr (Or.inr (transmit_mem_write_lockbits h))))
      · simp at h
    · simp only [List.mem_append] at h
      rcases h with ((h | h) | h) | h
      · exact Or.inl (transmit_mem_setupTrace h)
      · rcases transmit_mem_write_fuses h with h | h | h
        · exact Or.inr (Or.inl h)
        · exact Or.inr (Or.inr (Or.inl h))
        · exact Or.inr (Or.inr (Or.inr (Or.inl h)))
      · simp at h
      · exact Or.inr (Or.inr (Or.inr (Or.inr (transmit_mem_write_lockbits h))))
  · simp only [List.mem_append] at h
    rcases h with h | h
    · exact Or.inl (transmit_mem_setupTrace h)
    · rcases transmit_mem_write_fuses h with h | h | h
      · exact Or.inr (Or.inl h)
      · exact Or.inr (Or.inr (Or.inl h))
      · exact Or.inr (Or.inr (Or.inr (Or.inl h)))

/-- With all three fuse values in range, write_fuses performs the three
blocks in order and does not abort. -/
lemma write_fuses_eq_of_fits (dev : Device) {opts : WriteOptions}
    (h1 : fitsByte opts.low_fuse = true) (h2 : fitsByte opts.high_fuse = true)
    (h3 : fitsByte opts.extended_fuse = true) :
    write_fuses dev opts =
      ((writeFuseBlock dev.fuse_low opts.low_fuse write_low_fuse).1 ++
       (writeFuseBlock dev.fuse_high opts.high_fuse write_high_fuse).1 ++
       (writeFuseBlock dev.fuse_extended opts.extended_fuse write_extended_fuse).1,
       true) := by
  unfold write_fuses
  rw [writeFuseBlock_snd_of_fits h1, writeFuseBlock_snd_of_fits h2,
    writeFuseBlock_snd_of_fits h3]
  simp

/-- With an in-range (or absent) lock-bits value, write_lockbits does not
abort. -/
lemma write_lockbits_snd_of_fits {dev : Device} {opts : WriteOptions}
    (h : fitsByte opts.lock_bits = true) :
    (write_lockbits dev opts).2 = true := by
  unfold write_lockbits
  split
  · cases hlk : opts.lock_bits with
    | none => rfl
    | some v =>
      have hv : v ≤ 255 := by rw [hlk] at h; simpa [fitsByte] using h
      simp [byteLiteral, hv]
  · rfl

/-- With all four values in range, the whole run succeeds and its trace is
the setup, the fuse blocks, reset low, the lock-bits step, reset high. -/
lemma process_eq_of_fits (dev : Device) (opts : WriteOptions) (b l r : Nat)
    (h1 : fitsByte opts.low_fuse = true) (h2 : fitsByte opts.high_fuse = true)
    (h3 : fitsByte opts.extended_fuse = true) (h4 : fitsByte opts.lock_bits = true) :
    process (some dev) opts b l r =
      (setupTrace b l r ++ (write_fuses dev opts).1 ++ [Event.resetStatus 0] ++
       (write_lockbits dev opts).1 ++ [Event.resetStatus 1], true) := by
  have hf : (write_fuses dev opts).2 = true := by
    rw [write_fuses_eq_of_fits dev h1 h2 h3]
  have hl : (write_lockbits dev opts).2 = true := write_lockbits_snd_of_fits h4
  simp [process, hf, hl]

/-- With the three fuse values in range, the run's trace is the setup, the
three fuse blocks, reset low, then a tail containing no fuse-write settle
delay and no further reset-low. -/
lemma process_trace_of_fits {dev : Device} {opts : WriteOptions} (b l r : Nat)
    (h1 : fitsByte opts.low_fuse = true) (h2 : fitsByte opts.high_fuse = true)
    (h3 : fitsByte opts.extended_fuse = true) :
    ∃ tail, (process (some dev) opts b l r).1 =
      setupTrace b l r ++
      (writeFuseBlock dev.fuse_low opts.low_fuse write_low_fuse).1 ++
      (writeFuseBlock dev.fuse_high opts.high_fuse write_high_fuse).1 ++
      (writeFuseBlock dev.fuse_extended opts.extended_fuse write_extended_fuse).1 ++
      Event.resetStatus 0 :: tail ∧
      List.count (Event.sleep 1) tail = 0 ∧
      List.count (Event.resetStatus 0) tail = 0 := by
  have hcnt1 : List.count (Event.sleep 1) (write_lockbits dev opts).1 = 0 := by
    unfold write_lockbits
    split
    · cases opts.lock_bits with
      | none => simp
      | some w => by_cases hle : w ≤ 255 <;> simp [byteLiteral, hle]
    · simp
  have hcnt0 : List.count (Event.resetStatus 0) (write_lockbits dev opts).1 = 0 := by
    unfold write_lockbits
    split
    · cases opts.lock_bits with
      | none => simp
      | some w => by_cases hle : w ≤ 255 <;> simp [byteLiteral, hle]
    · simp
  have hf : (write_fuses dev opts).2 = true := by
    rw [write_fuses_eq_of_fits dev h1 h2 h3]
  have hfe := write_fuses_eq_of_fits dev h1 h2 h3
  simp only [process, hf, if_true]
  split
  · refine ⟨(write_lockbits dev opts).1 ++ [Event.resetStatus 1], ?_, ?_, ?_⟩
    · rw [hfe]
      simp [List.append_assoc]
    · simp [List.count_append, hcnt1]
    · simp [List.count_append, hcnt0]
  · refine ⟨(write_lockbits dev opts).1, ?_, hcnt1, hcnt0⟩
    rw [hfe]
    simp [List.append_assoc]

/-- The settle-delay count of a fuse block: one exactly when the group is
written. -/
lemma count_sleep_writeFuseBlock {fields : List String} {value : Option Nat}
    (cmd : List Nat) (h : fitsByte value = true) :
    List.count (Event.sleep 1) (writeFuseBlock fields value cmd).1 =
      if fuseWritten fields value then 1 else 0 := by
  cases value with
  | none => rw [writeFuseBlock_none]; simp [fuseWritten]
  | some v =>
    have hv : v ≤ 255 := by simpa [fitsByte] using h
    by_cases hlen : 0 < fields.length
    · rw [writeFuseBlock_some_le cmd hlen hv]
      simp [fuseWritten, hlen]
    · unfold writeFuseBlock
      rw [if_neg hlen]
      simp [fuseWritten, hlen]

/-- The reset-assert count of a fuse block: one exactly when the group is
written. -/
lemma count_reset0_writeFuseBlock {fields : List String} {value : Option Nat}
    (cmd : List Nat) (h : fitsByte value = true) :
    List.count (Event.resetStatus 0) (writeFuseBlock fields value cmd).1 =
      if fuseWritten fields value then 1 else 0 := by
  cases value with
  | none => rw [writeFuseBlock_none]; simp [fuseWritten]
  | some v =>
    have hv : v ≤ 255 := by simpa [fitsByte] using h
    by_cases hlen : 0 < fields.length
    · rw [writeFuseBlock_some_le cmd hlen hv]
      simp [fuseWritten, hlen]
    · unfold writeFuseBlock
      rw [if_neg hlen]
      simp [fuseWritten, hlen]

/-- The setup sequence contains no fuse-write settle delay. -/
lemma count_sleep_setupTrace (b l r : Nat) :
    List.count (Event.sleep 1) (setupTrace b l r) = 0 := by
  simp [setupTrace]

/-- The setup sequence asserts reset exactly once. -/
lemma count_reset0_setupTrace (b l r : Nat) :
    List.count (Event.resetStatus 0) (setupTrace b l r) = 1 := by
  simp [setupTrace]

/-- A transmitted low-fuse write command implies the low fuse was supported
and its supplied value is the transmitted in-range byte. -/
lemma low_transmit_inv {dev : Device} {opts : WriteOptions} {b l r v : Nat}
    (h : Event.transmit (write_low_fuse ++ [v]) ∈ (process (some dev) opts b l r).1) :
    opts.low_fuse = some v ∧ v ≤ 255 ∧ 0 < dev.fuse_low.length := by
  rcases transmit_mem_process h with h | ⟨w, h1, h2, h3, hd⟩ | ⟨w, h1, h2, h3, hd⟩ |
    ⟨w, h1, h2, h3, hd⟩ | ⟨w, h1, h2, h3, hd⟩
  · simp [write_low_fuse, enable_mem_access_cmd] at h
  · obtain rfl : v = w := by simpa [write_low_fuse] using hd
    exact ⟨h1, h2, h3⟩
  · simp [write_low_fuse, write_high_fuse] at hd
  · simp [write_low_fuse, write_extended_fuse] at hd
  · simp [write_low_fuse, write_lockbits_cmd] at hd

/-- A transmitted high-fuse write command implies the high fuse was
supported and its supplied value is the transmitted in-range byte. -/
lemma high_transmit_inv {dev : Device} {opts : WriteOptions} {b l r v : Nat}
    (h : Event.transmit (write_high_fuse ++ [v]) ∈ (process (some dev) opts b l r).1) :
    opts.high_fuse = some v ∧ v ≤ 255 ∧ 0 < dev.fuse_high.length := by
  rcases transmit_mem_process h with h | ⟨w, h1, h2, h3, hd⟩ | ⟨w, h1, h2, h3, hd⟩ |
    ⟨w, h1, h2, h3, hd⟩ | ⟨w, h1, h2, h3, hd⟩
  · simp [write_high_fuse, enable_mem_access_cmd] at h
  · simp [write_high_fuse, write_low_fuse] at hd
  · obtain rfl : v = w := by simpa [write_high_fuse] using hd
    exact ⟨h1, h2, h3⟩
  · simp [write_high_fuse, write_extended_fuse] at hd
  · simp [write_high_fuse, write_lockbits_cmd] at hd

/-- A transmitted extended-fuse write command implies the extended fuse was
supported and its supplied value is the transmitted in-range byte. -/
lemma extended_transmit_inv {dev : Device} {opts : WriteOptions} {b l r v : Nat}
    (h : Event.transmit (write_extended_fuse ++ [v]) ∈ (process (some dev) opts b l r).1) :
    opts.extended_fuse = some v ∧ v ≤ 255 ∧ 0 < dev.fuse_extended.length := by
  rcases transmit_mem_process h with h | ⟨w, h1, h2, h3, hd⟩ | ⟨w, h1, h2, h3, hd⟩ |
    ⟨w, h1, h2, h3, hd⟩ | ⟨w, h1, h2, h3, hd⟩
  · simp [write_extended_fuse, enable_mem_access_cmd] at h
  · simp [write_extended_fuse, write_low_fuse] at hd
  · simp [write_extended_fuse, write_high_fuse] at hd
  · obtain rfl : v = w := by simpa [write_extended_fuse] using hd
    exact ⟨h1, h2, h3⟩
  · simp [write_extended_fuse, write_lockbits_cmd] at hd

/-- A transmitted lock-bits write command implies the lock bits were
supported and their supplied value is the transmitted in-range byte. -/
lemma lockbits_transmit_inv {dev : Device} {opts : WriteOptions} {b l r v : Nat}
    (h : Event.transmit (write_lockbits_cmd ++ [v]) ∈ (process (some dev) opts b l r).1) :
    opts.lock_bits = some v ∧ v ≤ 255 ∧ 0 < dev.lock_bits.length := by
  rcases transmit_mem_process h with h | ⟨w, h1, h2, h3, hd⟩ | ⟨w, h1, h2, h3, hd⟩ |
    ⟨w, h1, h2, h3, hd⟩ | ⟨w, h1, h2, h3, hd⟩
  · simp [write_lockbits_cmd, enable_mem_access_cmd] at h
  · simp [write_lockbits_cmd, write_low_fuse] at hd
  · simp [write_lockbits_cmd, write_high_fuse] at hd
  · simp [write_lockbits_cmd, write_extended_fuse] at hd
  · obtain rfl : v = w := by simpa [write_lockbits_cmd] using hd
    exact ⟨h1, h2, h3⟩

/-- Reset-line events carry no group tag. -/
lemma writeTag_resetStatus (v : Nat) : writeTag (Event.resetStatus v) = none := rfl

/-- Sleep events carry no group tag. -/
lemma writeTag_sleep (t : Nat) : writeTag (Event.sleep t) = none := rfl

/-- A fuse block contributes at most its own group tag. -/
lemma filterMap_writeTag_block (fields : List String) (value : Option Nat)
    {cmd : List Nat} {t : Nat}
    (ht : ∀ v, writeTag (Event.transmit (cmd ++ [v])) = some t) :
    List.Sublist (List.filterMap writeTag (writeFuseBlock fields value cmd).1) [t] := by
  cases value with
  | none => rw [writeFuseBlock_none]; simp
  | some v =>
    by_cases hlen : 0 < fields.length
    · by_cases hle : v ≤ 255
      · rw [writeFuseBlock_some_le cmd hlen hle]
        simp [List.filterMap_cons, ht v, writeTag_resetStatus, writeTag_sleep]
      · rw [writeFuseBlock_some_gt cmd hlen (by omega)]
        simp [List.filterMap_cons, writeTag_resetStatus]
    · unfold writeFuseBlock
      rw [if_neg hlen]
      simp

/-- Tag of a low-fuse write transmit. -/
lemma writeTag_low (v : Nat) :
    writeTag (Event.transmit (write_low_fuse ++ [v])) = some 0 := by
  simp [writeTag, write_low_fuse]

/-- Tag of a high-fuse write transmit. -/
lemma writeTag_high (v : Nat) :
    writeTag (Event.transmit (write_high_fuse ++ [v])) = some 1 := by
  simp [writeTag, write_low_fuse, write_high_fuse]

/-- Tag of an extended-fuse write transmit. -/
lemma writeTag_extended (v : Nat) :
    writeTag (Event.transmit (write_extended_fuse ++ [v])) = some 2 := by
  simp [writeTag, write_low_fuse, write_high_fuse, write_extended_fuse]

/-- Tag of a lock-bits write transmit. -/
lemma writeTag_lockbits (v : Nat) :
    writeTag (Event.transmit (write_lockbits_cmd ++ [v])) = some 3 := by
  simp [writeTag, write_low_fuse, write_high_fuse, write_extended_fuse,
    write_lockbits_cmd]

/-- The setup sequence contains no group-write transmit. -/
lemma filterMap_writeTag_setupTrace (b l r : Nat) :
    List.filterMap writeTag (setupTrace b l r) = [] := by
  simp [setupTrace, writeTag, enable_mem_access_cmd, write_low_fuse,
    write_high_fuse, write_extended_fuse, write_lockbits_cmd]

/-- write_fuses contributes at most the tags 0, 1, 2, in order. -/
lemma filterMap_writeTag_write_fuses (dev : Device) (opts : WriteOptions) :
    List.Sublist (List.filterMap writeTag (write_fuses dev opts).1) [0, 1, 2] := by
  have s1 := filterMap_writeTag_block dev.fuse_low opts.low_fuse writeTag_low
  have s2 := filterMap_writeTag_block dev.fuse_high opts.high_fuse writeTag_high
  have s3 := filterMap_writeTag_block dev.fuse_extended opts.extended_fuse
    writeTag_extended
  unfold write_fuses
  split
  · split
    · simp only [List.filterMap_append]
      exact (s1.append s2).append s3
    · simp only [List.filterMap_append]
      have h2 : List.Sublist ([1] : List Nat) [1, 2] := by simp
      exact s1.append (s2.trans h2)
  · have h0 : List.Sublist ([0] : List Nat) [0, 1, 2] := by simp
    exact s1.trans h0

/-- The lock-bits step contributes at most the tag 3. -/
lemma filterMap_writeTag_write_lockbits (dev : Device) (opts : WriteOptions) :
    List.Sublist (List.filterMap writeTag (write_lockbits dev opts).1) [3] := by
  unfold write_lockbits
  split
  · cases opts.lock_bits with
    | none => simp
    | some w =>
      by_cases hle : w ≤ 255 <;>
        simp [byteLiteral, hle, List.filterMap_cons, writeTag_lockbits]
  · simp

end Helpers

section Claims

/-- Claim C1: for every run, each SPI transmission matches the command
table exactly: the programming-enable transmit is the 4 bytes AC 53 00 00,
and each fuse or lock write transmit is the 3-byte group command bytes
(low AC A0 00, high AC A8 00, extended AC A4 00, lock bits AC E0 00)
immediately followed by the single supplied value byte, in that
concatenation order. -/
theorem transmissions_match_command_table
    (device : Option Device) (opts : WriteOptions) (b l r : Nat) (data : List Nat)
    (h : Event.transmit data ∈ (process device opts b l r).1) :
    data = enable_mem_access_cmd ∨
    (∃ v, opts.low_fuse = some v ∧ data = write_low_fuse ++ [v]) ∨
    (∃ v, opts.high_fuse = some v ∧ data = write_high_fuse ++ [v]) ∨
    (∃ v, opts.extended_fuse = some v ∧ data = write_extended_fuse ++ [v]) ∨
    (∃ v, opts.lock_bits = some v ∧ data = write_lockbits_cmd ++ [v]) := by
  cases device with
  | none => simp [process] at h
  | some dev =>
    rcases transmit_mem_process h with h | ⟨v, h1, h2, h3, hd⟩ | ⟨v, h1, h2, h3, hd⟩ |
      ⟨v, h1, h2, h3, hd⟩ | ⟨v, h1, h2, h3, hd⟩
    · exact Or.inl h
    · exact Or.inr (Or.inl ⟨v, h1, hd⟩)
    · exact Or.inr (Or.inr (Or.inl ⟨v, h1, hd⟩))
    · exact Or.inr (Or.inr (Or.inr (Or.inl ⟨v, h1, hd⟩)))
    · exact Or.inr (Or.inr (Or.inr (Or.inr ⟨v, h1, hd⟩)))

/-- Witness for C1 on a concrete run: a low-fuse write of 0xE2 is in the
trace and matches the command table. -/
theorem transmissions_match_command_table_witness :
    Event.transmit (write_low_fuse ++ [0xE2]) ∈
      (process (some devFull) ⟨some 0xE2, none, none, none⟩ 0 1 1000000).1 ∧
    (write_low_fuse ++ [0xE2] = enable_mem_access_cmd ∨
     (∃ v, (⟨some 0xE2, none, none, none⟩ : WriteOptions).low_fuse = some v ∧
       write_low_fuse ++ [0xE2] = write_low_fuse ++ [v]) ∨
     (∃ v, (⟨some 0xE2, none, none, none⟩ : WriteOptions).high_fuse = some v ∧
       write_low_fuse ++ [0xE2] = write_high_fuse ++ [v]) ∨
     (∃ v, (⟨some 0xE2, none, none, none⟩ : WriteOptions).extended_fuse = some v ∧
       write_low_fuse ++ [0xE2] = write_extended_fuse ++ [v]) ∨
     (∃ v, (⟨some 0xE2, none, none, none⟩ : WriteOptions).lock_bits = some v ∧
       write_low_fuse ++ [0xE2] = write_lockbits_cmd ++ [v])) :=
  ⟨by decide,
   transmissions_match_command_table (some devFull) ⟨some 0xE2, none, none, none⟩
     0 1 1000000 (write_low_fuse ++ [0xE2]) (by decide)⟩

/-- Claim C4: when a group's write value is absent, zero SPI transmissions
are issued for that group, for each fuse group and for the lock bits. -/
theorem absent_value_no_transmission
    (device : Option Device) (opts : WriteOptions) (b l r : Nat) :
    (opts.low_fuse = none →
      ∀ v, Event.transmit (write_low_fuse ++ [v]) ∉ (process device opts b l r).1) ∧
    (opts.high_fuse = none →
      ∀ v, Event.transmit (write_high_fuse ++ [v]) ∉ (process device opts b l r).1) ∧
    (opts.extended_fuse = none →
      ∀ v, Event.transmit (write_extended_fuse ++ [v]) ∉ (process device opts b l r).1) ∧
    (opts.lock_bits = none →
      ∀ v, Event.transmit (write_lockbits_cmd ++ [v]) ∉ (process device opts b l r).1) := by
  cases device with
  | none => simp [process]
  | some dev =>
    refine ⟨?_, ?_, ?_, ?_⟩
    all_goals intro h0 v hmem
    · rcases low_transmit_inv hmem with ⟨h1, h2, h3⟩
      rw [h0] at h1
      simp at h1
    · rcases high_transmit_inv hmem with ⟨h1, h2, h3⟩
      rw [h0] at h1
      simp at h1
    · rcases extended_transmit_inv hmem with ⟨h1, h2, h3⟩
      rw [h0] at h1
      simp at h1
    · rcases lockbits_transmit_inv hmem with ⟨h1, h2, h3⟩
      rw [h0] at h1
      simp at h1

/-- Witness for C4 on a concrete run: with the low fuse absent, its write
command is never transmitted. -/
theorem absent_value_no_transmission_witness :
    Event.transmit (write_low_fuse ++ [7]) ∉
      (process (some devFull) ⟨none, none, none, some 0xFC⟩ 0 1 1000000).1 :=
  (absent_value_no_transmission (some devFull) ⟨none, none, none, some 0xFC⟩
    0 1 1000000).1 rfl 7

/-- Claim C5: when the identified device's layout reports a group as
unsupported (empty field list), zero SPI transmissions are issued for that
group, regardless of any supplied value. -/
theorem unsupported_group_no_transmission
    (dev : Device) (opts : WriteOptions) (b l r : Nat) :
    (dev.fuse_low = [] →
      ∀ v, Event.transmit (write_low_fuse ++ [v]) ∉ (process (some dev) opts b l r).1) ∧
    (dev.fuse_high = [] →
      ∀ v, Event.transmit (write_high_fuse ++ [v]) ∉ (process (some dev) opts b l r).1) ∧
    (dev.fuse_extended = [] →
      ∀ v, Event.transmit (write_extended_fuse ++ [v]) ∉ (process (some dev) opts b l r).1) ∧
    (dev.lock_bits = [] →
      ∀ v, Event.transmit (write_lockbits_cmd ++ [v]) ∉ (process (some dev) opts b l r).1) := by
  refine ⟨?_, ?_, ?_, ?_⟩
  all_goals intro h0 v hmem
  · rcases low_transmit_inv hmem with ⟨h1, h2, h3⟩
    rw [h0] at h3
    simp at h3
  · rcases high_transmit_inv hmem with ⟨h1, h2, h3⟩
    rw [h0] at h3
    simp at h3
  · rcases extended_transmit_inv hmem with ⟨h1, h2, h3⟩
    rw [h0] at h3
    simp at h3
  · rcases lockbits_transmit_inv hmem with ⟨h1, h2, h3⟩
    rw [h0] at h3
    simp at h3

/-- Witness for C5 on a concrete run: a device without a high fuse never
sees a high-fuse write command even though a value was supplied. -/
theorem unsupported_group_no_transmission_witness :
    Event.transmit (write_high_fuse ++ [0x11]) ∉
      (process (some (⟨["f"], [], ["f"], ["f"]⟩ : Device))
        ⟨none, some 0x11, none, none⟩ 0 1 1000000).1 :=
  (unsupported_group_no_transmission ⟨["f"], [], ["f"], ["f"]⟩
    ⟨none, some 0x11, none, none⟩ 0 1 1000000).2.1 rfl 0x11

/-- Claim C6: if device identification returns none, no protocol steps
execute at all: the run's trace is empty (no SPI interface or reset GPIO
creation, no reset-line level, no SPI byte) and the run does not abort. -/
theorem no_device_no_hardware_steps (opts : WriteOptions) (b l r : Nat) :
    process none opts b l r = ([], true) := rfl

/-- Claim C7: with an identified device, the run begins with exactly the
programming-enable handshake: create the SPI interface and the reset GPIO,
set the reset line to output, drive reset to its inactive level 1,
configure SPI, assert reset to 0, transmit AC 53 00 00, then wait the
0.5-time-unit settle delay (5 tenths) before anything further. -/
theorem enable_handshake_sequence (dev : Device) (opts : WriteOptions) (b l r : Nat) :
    ∃ rest, (process (some dev) opts b l r).1 =
      [Event.createSPI b, Event.createGPIO l, Event.setDirectionOutput,
       Event.resetStatus 1, Event.spiConfigure r, Event.resetStatus 0,
       Event.transmit enable_mem_access_cmd, Event.sleep 5] ++ rest := by
  simp only [process]
  split
  · split
    · exact ⟨[Event.resetStatus 1] ++ (write_fuses dev opts).1 ++
        [Event.resetStatus 0] ++ (write_lockbits dev opts).1 ++ [Event.resetStatus 1],
        by simp [setupTrace, List.append_assoc]⟩
    · exact ⟨[Event.resetStatus 1] ++ (write_fuses dev opts).1 ++
        [Event.resetStatus 0] ++ (write_lockbits dev opts).1,
        by simp [setupTrace, List.append_assoc]⟩
  · exact ⟨[Event.resetStatus 1] ++ (write_fuses dev opts).1,
      by simp [setupTrace, List.append_assoc]⟩

/-- Claim C2: every fuse group that is supported and has a value supplied
is written as the exact sequence reset low, transmit the 3-byte command
plus the value byte, reset high, 0.1-time-unit delay (1 tenth); and the
reset toggle happens once per group written (the sleep-1 count equals the
number of written groups, and the reset-assert count is one per written
group plus the two session-level asserts). -/
theorem written_fuse_group_reset_cycle
    (dev : Device) (opts : WriteOptions) (b l r : Nat)
    (h1 : fitsByte opts.low_fuse = true) (h2 : fitsByte opts.high_fuse = true)
    (h3 : fitsByte opts.extended_fuse = true) :
    (∀ v, opts.low_fuse = some v → 0 < dev.fuse_low.length →
      ∃ pre post, (process (some dev) opts b l r).1 =
        pre ++ [Event.resetStatus 0, Event.transmit (write_low_fuse ++ [v]),
                Event.resetStatus 1, Event.sleep 1] ++ post) ∧
    (∀ v, opts.high_fuse = some v → 0 < dev.fuse_high.length →
      ∃ pre post, (process (some dev) opts b l r).1 =
        pre ++ [Event.resetStatus 0, Event.transmit (write_high_fuse ++ [v]),
                Event.resetStatus 1, Event.sleep 1] ++ post) ∧
    (∀ v, opts.extended_fuse = some v → 0 < dev.fuse_extended.length →
      ∃ pre post, (process (some dev) opts b l r).1 =
        pre ++ [Event.resetStatus 0, Event.transmit (write_extended_fuse ++ [v]),
                Event.resetStatus 1, Event.sleep 1] ++ post) ∧
    List.count (Event.sleep 1) (process (some dev) opts b l r).1 =
      (if fuseWritten dev.fuse_low opts.low_fuse then 1 else 0) +
      (if fuseWritten dev.fuse_high opts.high_fuse then 1 else 0) +
      (if fuseWritten dev.fuse_extended opts.extended_fuse then 1 else 0) ∧
    List.count (Event.resetStatus 0) (process (some dev) opts b l r).1 =
      (if fuseWritten dev.fuse_low opts.low_fuse then 1 else 0) +
      (if fuseWritten dev.fuse_high opts.high_fuse then 1 else 0) +
      (if fuseWritten dev.fuse_extended opts.extended_fuse then 1 else 0) + 2 := by
  obtain ⟨tail, htr, hcs, hcr⟩ := process_trace_of_fits b l r h1 h2 h3
  refine ⟨?_, ?_, ?_, ?_, ?_⟩
  · intro v hv hlen
    have hvle : v ≤ 255 := by rw [hv] at h1; simpa [fitsByte] using h1
    refine ⟨setupTrace b l r,
      (writeFuseBlock dev.fuse_high opts.high_fuse write_high_fuse).1 ++
      (writeFuseBlock dev.fuse_extended opts.extended_fuse write_extended_fuse).1 ++
      Event.resetStatus 0 :: tail, ?_⟩
    rw [htr, hv, writeFuseBlock_some_le write_low_fuse hlen hvle]
    simp [List.append_assoc]
  · intro v hv hlen
    have hvle : v ≤ 255 := by rw [hv] at h2; simpa [fitsByte] using h2
    refine ⟨setupTrace b l r ++
      (writeFuseBlock dev.fuse_low opts.low_fuse write_low_fuse).1,
      (writeFuseBlock dev.fuse_extended opts.extended_fuse write_extended_fuse).1 ++
      Event.resetStatus 0 :: tail, ?_⟩
    rw [htr, hv, writeFuseBlock_some_le write_high_fuse hlen hvle]
    simp [List.append_assoc]
  · intro v hv hlen
    have hvle : v ≤ 255 := by rw [hv] at h3; simpa [fitsByte] using h3
    refine ⟨setupTrace b l r ++
      (writeFuseBlock dev.fuse_low opts.low_fuse write_low_fuse).1 ++
      (writeFuseBlock dev.fuse_high opts.high_fuse write_high_fuse).1,
      Event.resetStatus 0 :: tail, ?_⟩
    rw [htr, hv, writeFuseBlock_some_le write_extended_fuse hlen hvle]
  · rw [htr]
    simp [List.count_append, List.count_cons, hcs, count_sleep_setupTrace,
      count_sleep_writeFuseBlock write_low_fuse h1,
      count_sleep_writeFuseBlock write_high_fuse h2,
      count_sleep_writeFuseBlock write_extended_fuse h3]
    omega
  · rw [htr]
    simp [List.count_append, List.count_cons, hcr, count_reset0_setupTrace,
      count_reset0_writeFuseBlock write_low_fuse h1,
      count_reset0_writeFuseBlock write_high_fuse h2,
      count_reset0_writeFuseBlock write_extended_fuse h3]
    omega

/-- Witness for C2 on a concrete run: the low-fuse write sequence appears
contiguously in the trace. -/
theorem written_fuse_group_reset_cycle_witness :
    ∃ pre post, (process (some devFull) ⟨some 0xE2, none, none, none⟩ 0 1 1000000).1 =
      pre ++ [Event.resetStatus 0, Event.transmit (write_low_fuse ++ [0xE2]),
              Event.resetStatus 1, Event.sleep 1] ++ post :=
  (written_fuse_group_reset_cycle devFull ⟨some 0xE2, none, none, none⟩ 0 1 1000000
    (by decide) (by decide) (by decide)).1 0xE2 rfl (by decide)

/-- Claim C3: the lock-bits write performs no reset toggling of its own;
the session asserts reset before the lock-bits step, the lock-bits write
transmits under that assertion, and reset is released only at the very end
of the whole session. -/
theorem lockbits_write_under_session_reset
    (dev : Device) (opts : WriteOptions) (b l r : Nat)
    (h1 : fitsByte opts.low_fuse = true) (h2 : fitsByte opts.high_fuse = true)
    (h3 : fitsByte opts.extended_fuse = true) (h4 : fitsByte opts.lock_bits = true) :
    (∀ v, Event.resetStatus v ∉ (write_lockbits dev opts).1) ∧
    ∃ pre, (process (some dev) opts b l r).1 =
      pre ++ Event.resetStatus 0 ::
        ((write_lockbits dev opts).1 ++ [Event.resetStatus 1]) := by
  refine ⟨resetStatus_not_mem_write_lockbits dev opts, ?_⟩
  refine ⟨setupTrace b l r ++ (write_fuses dev opts).1, ?_⟩
  have hpe := process_eq_of_fits dev opts b l r h1 h2 h3 h4
  rw [hpe]
  simp [List.append_assoc]

/-- Witness for C3 on a concrete run: the trace ends with reset low, the
lock-bits step, reset high. -/
theorem lockbits_write_under_session_reset_witness :
    ∃ pre, (process (some devFull) ⟨none, none, none, some 0xFC⟩ 0 1 1000000).1 =
      pre ++ Event.resetStatus 0 ::
        ((write_lockbits devFull ⟨none, none, none, some 0xFC⟩).1 ++
         [Event.resetStatus 1]) :=
  (lockbits_write_under_session_reset devFull ⟨none, none, none, some 0xFC⟩
    0 1 1000000 (by decide) (by decide) (by decide) (by decide)).2

/-- Counterexample to claim C8 as stated: in a run whose high-fuse value
0x100 is out of range, the low-fuse write command AC A0 00 E2 is
nevertheless transmitted (the rejection only happens when the out-of-range
group itself is reached). -/
theorem out_of_range_prior_write_transmitted :
    (∃ v, (⟨some 0xE2, some 0x100, none, none⟩ : WriteOptions).high_fuse = some v ∧
      255 < v) ∧
    Event.transmit (write_low_fuse ++ [0xE2]) ∈
      (process (some devFull) ⟨some 0xE2, some 0x100, none, none⟩ 0 1 1000000).1 :=
  ⟨⟨0x100, rfl, by norm_num⟩, by decide⟩

/-- Claim C8 (amended): an out-of-range value is rejected when its own
group's write is reached, before that group's transmit: the write command
of a group whose supplied value exceeds one byte is never transmitted (for
any value byte), though groups earlier in the fixed order may already have
been written. -/
theorem out_of_range_group_never_transmitted
    (device : Option Device) (opts : WriteOptions) (b l r : Nat) :
    (∀ v, opts.low_fuse = some v → 255 < v →
      ∀ w, Event.transmit (write_low_fuse ++ [w]) ∉ (process device opts b l r).1) ∧
    (∀ v, opts.high_fuse = some v → 255 < v →
      ∀ w, Event.transmit (write_high_fuse ++ [w]) ∉ (process device opts b l r).1) ∧
    (∀ v, opts.extended_fuse = some v → 255 < v →
      ∀ w, Event.transmit (write_extended_fuse ++ [w]) ∉ (process device opts b l r).1) ∧
    (∀ v, opts.lock_bits = some v → 255 < v →
      ∀ w, Event.transmit (write_lockbits_cmd ++ [w]) ∉ (process device opts b l r).1) := by
  cases device with
  | none => simp [process]
  | some dev =>
    refine ⟨?_, ?_, ?_, ?_⟩
    all_goals intro v hv hgt w hmem
    · rcases low_transmit_inv hmem with ⟨hw, hle, hlen⟩
      rw [hv] at hw
      have := Option.some.inj hw
      omega
    · rcases high_transmit_inv hmem with ⟨hw, hle, hlen⟩
      rw [hv] at hw
      have := Option.some.inj hw
      omega
    · rcases extended_transmit_inv hmem with ⟨hw, hle, hlen⟩
      rw [hv] at hw
      have := Option.some.inj hw
      omega
    · rcases lockbits_transmit_inv hmem with ⟨hw, hle, hlen⟩
      rw [hv] at hw
      have := Option.some.inj hw
      omega

/-- Witness for the amended C8 on a concrete run: with the high-fuse value
0x100 out of range, no high-fuse write command is transmitted at all. -/
theorem out_of_range_group_never_transmitted_witness :
    Event.transmit (write_high_fuse ++ [0x42]) ∉
      (process (some devFull) ⟨some 0xE2, some 0x100, none, none⟩ 0 1 1000000).1 :=
  (out_of_range_group_never_transmitted (some devFull)
    ⟨some 0xE2, some 0x100, none, none⟩ 0 1 1000000).2.1 0x100 rfl (by norm_num) 0x42

/-- Claim C9: in every run the group-write transmits that occur appear in
the fixed order low fuse, high fuse, extended fuse, lock bits, each at most
once: the sequence of group indices of the write transmits is a sublist of
[0, 1, 2, 3]. -/
theorem group_write_order_fixed
    (device : Option Device) (opts : WriteOptions) (b l r : Nat) :
    List.Sublist (List.filterMap writeTag (process device opts b l r).1)
      [0, 1, 2, 3] := by
  cases device with
  | none => simp [process]
  | some dev =>
    have hf := filterMap_writeTag_write_fuses dev opts
    have hl := filterMap_writeTag_write_lockbits dev opts
    simp only [process]
    split
    · split
      · simp only [List.filterMap_append, filterMap_writeTag_setupTrace]
        simp [List.filterMap_cons, writeTag_resetStatus]
        exact hf.append hl
      · simp only [List.filterMap_append, filterMap_writeTag_setupTrace]
        simp [List.filterMap_cons, writeTag_resetStatus]
        exact hf.append hl
    · simp only [List.filterMap_append, filterMap_writeTag_setupTrace]
      simp only [List.nil_append]
      have h012 : List.Sublist ([0, 1, 2] : List Nat) [0, 1, 2, 3] := by simp
      exact hf.trans h012

/-- Claim C10: even with all four write values absent, a run with an
identified device still touches the hardware: it performs the full enable
handshake (including the AC 53 00 00 transmit and the reset pulse) and the
reset low / reset high pair around the empty lock-bits step, ending with
reset released at level 1; only the write transmits are suppressed. -/
theorem all_values_absent_trace (dev : Device) (b l r : Nat) :
    process (some dev) ⟨none, none, none, none⟩ b l r =
      ([Event.createSPI b, Event.createGPIO l, Event.setDirectionOutput,
        Event.resetStatus 1, Event.spiConfigure r, Event.resetStatus 0,
        Event.transmit enable_mem_access_cmd, Event.sleep 5, Event.resetStatus 1,
        Event.resetStatus 0, Event.resetStatus 1], true) := by
  have hf : write_fuses dev ⟨none, none, none, none⟩ = ([], true) := by
    unfold write_fuses
    simp [writeFuseBlock_none]
  have hl : write_lockbits dev ⟨none, none, none, none⟩ = ([], true) := by
    unfold write_lockbits
    split <;> rfl
  simp [process, hf, hl, setupTrace]

end Claims
